import Mathlib

/-!
Verification development for the attendance reconciliation program
(`Compare excel deployment/comparede.py`).  The Python source is shallowly
embedded below: its pure string/time utilities become Lean functions over
`String`/`List Char`, pandas tables become lists of rows whose cells are
`Option String` (with `none` standing for a missing value, NaN), and the
per-row classification loop of `compare_files` becomes a pure function.
Times parsed by `to_time` carry no date (every `datetime.strptime` result in
the program shares the date 1900-01-01), so ordering and differences of those
datetimes coincide with ordering and differences of seconds-of-day; the
embedding compares times through `PTime.secs`.
-/

namespace Attendance

/-- Whitespace test modelling Python `str.strip` on ASCII text: space, tab,
line feed, vertical tab, form feed, carriage return. -/
def isWS (c : Char) : Bool :=
  c.toNat = 32 || c.toNat = 9 || c.toNat = 10 || c.toNat = 11 ||
  c.toNat = 12 || c.toNat = 13

/-- Python `str.strip()` on a character list: drop whitespace from both ends. -/
def pyStripL (l : List Char) : List Char :=
  ((l.dropWhile isWS).reverse.dropWhile isWS).reverse

/-- Python `str.strip()`. -/
def pyStrip (s : String) : String := String.mk (pyStripL s.data)

/-- Python `str.upper()` restricted to ASCII letters. -/
def upChar (c : Char) : Char :=
  if 97 ≤ c.toNat ∧ c.toNat ≤ 122 then Char.ofNat (c.toNat - 32) else c

/-- Python `str.lower()` restricted to ASCII letters. -/
def lowChar (c : Char) : Char :=
  if 65 ≤ c.toNat ∧ c.toNat ≤ 90 then Char.ofNat (c.toNat + 32) else c

/-- Python `s.upper()`. -/
def pyUpper (s : String) : String := String.mk (s.data.map upChar)

/-- Python `s.lower()`. -/
def pyLower (s : String) : String := String.mk (s.data.map lowChar)

/-- Substring test on character lists (Python `needle in hay`); the empty
needle is contained in everything, as in Python. -/
def hasSubList (needle : List Char) : List Char → Bool
  | [] => needle.isEmpty
  | c :: t => needle.isPrefixOf (c :: t) || hasSubList needle t

/-- Python `pat in hay` for strings. -/
def strContains (hay pat : String) : Bool := hasSubList pat.data hay.data

/-- Uppercase ASCII letter or digit — the character class `[A-Z0-9]` of
`clean_id`'s final regex. -/
def isAlnumUp (c : Char) : Bool :=
  (65 ≤ c.toNat && c.toNat ≤ 90) || (48 ≤ c.toNat && c.toNat ≤ 57)

/-- Does the string end in a literal ".0" (the pattern of
`re.sub(r"\.0$", "", s)` in `clean_id`)? -/
def endsDot0 (l : List Char) : Bool := l.reverse.take 2 == ['0', '.']

/-- Drop a trailing ".0" when present: `re.sub(r"\.0$", "", s)`; the regex
can match at most once, at the very end. -/
def dropDot0 (l : List Char) : List Char :=
  if endsDot0 l then l.take (l.length - 2) else l

/-- Function `clean_id` (comparede.py lines 13-17) applied to an already stringified
value: `str(x).strip().upper()`, then strip a trailing ".0", then remove all
characters outside `[A-Z0-9]`. -/
def cleanId (s : String) : String :=
  String.mk ((dropDot0 ((pyStripL s.data).map upChar)).filter isAlnumUp)

/-- A Python scalar as it reaches `clean_id`: a string cell, the missing
markers `None` and NaN (whose Python stringifications are "None" and "nan"
— both `str(None)` directly and NaN through the driver's `.astype(str)`).
Numeric cells reach `clean_id` already rendered as decimal text and are
covered by `text`. -/
inductive PyScalar where
  | text (s : String)
  | noneVal
  | nanVal
deriving DecidableEq

/-- Python `str(x)` on those scalars. -/
def pyStr : PyScalar → String
  | .text s => s
  | .noneVal => "None"
  | .nanVal => "nan"

/-- Function `clean_id` on an arbitrary scalar: `str(x)` then the string pipeline. -/
def cleanIdScalar (v : PyScalar) : String := cleanId (pyStr v)

/-- A parsed time of day, the (hour, minute, second) of the `datetime`
produced by `to_time`; the date part is the constant 1900-01-01 and is not
represented. -/
structure PTime where
  hour : Nat
  minute : Nat
  second : Nat
deriving DecidableEq

/-- Seconds since midnight.  For every value `to_time` can produce
(hour ≤ 23, minute ≤ 59, second ≤ 59) this is order-isomorphic to the
lexicographic `datetime`/`time` comparison Python performs. -/
def PTime.secs (t : PTime) : Nat := t.hour * 3600 + t.minute * 60 + t.second

/-- The character class `[0-9:]` kept by `to_time`'s
`re.sub(r"[^0-9:]", "", s)`. -/
def isClockChar (c : Char) : Bool := c.isDigit || c == ':'

/-- The step `re.sub(r"[^0-9:]", "", s).strip()` of `to_time`: keep only ASCII digits
and colons (the trailing `strip` is then vacuous). -/
def stripClock (s : String) : String :=
  String.mk (pyStripL (s.data.filter isClockChar))

/-- Split a character list on ':' — `strptime` against `"%H:%M:%S"` /
`"%H:%M"` consumes colon-separated digit groups, so on strings made only of
digits and colons it is exactly a split into components.  Mirrors Python
`s.split(":")`: the empty string yields one empty component. -/
def splitCols : List Char → List (List Char)
  | [] => [[]]
  | c :: t =>
    if c == ':' then [] :: splitCols t
    else
      match splitCols t with
      | [] => [[c]]
      | h :: r => (c :: h) :: r

/-- Decimal value of a digit list. -/
def digitsVal (l : List Char) : Nat :=
  l.foldl (fun a c => a * 10 + (c.toNat - 48)) 0

/-- One `strptime` time component: one or two ASCII digits whose value is at
most `hi` (23 for `%H`, 59 for `%M`; for `%S`, values 60 and 61 pass the
`strptime` regex but make the `datetime` constructor raise, which the bare
`except` of `to_time` turns into the same failure, so `hi = 59` is faithful). -/
def compVal (l : List Char) (hi : Nat) : Option Nat :=
  if (l.length = 1 ∨ l.length = 2) ∧ l.all Char.isDigit then
    if digitsVal l ≤ hi then some (digitsVal l) else none
  else none

/-- Strict parse against `"%H:%M:%S"`: exactly three components, full string
consumed. -/
def parseHMS (s : String) : Option PTime :=
  match splitCols s.data with
  | [h, m, sec] =>
    match compVal h 23, compVal m 59, compVal sec 59 with
    | some hv, some mv, some sv => some ⟨hv, mv, sv⟩
    | _, _, _ => none
  | _ => none

/-- Strict parse against `"%H:%M"`: exactly two components, seconds zero. -/
def parseHM (s : String) : Option PTime :=
  match splitCols s.data with
  | [h, m] =>
    match compVal h 23, compVal m 59 with
    | some hv, some mv => some ⟨hv, mv, 0⟩
    | _, _ => none
  | _ => none

/-- Function `to_time` (comparede.py lines 19-30) on a string cell: strip everything
but digits and colons, then try `"%H:%M:%S"` first and `"%H:%M"` second,
first success winning; any failure yields `none`, never an error. -/
def toTimeStr (s : String) : Option PTime :=
  match parseHMS (stripClock s) with
  | some v => some v
  | none => parseHM (stripClock s)

/-- Function `to_time` on a possibly missing cell: `pd.isna(v)` short-circuits to
`None`. -/
def toTime : Option String → Option PTime
  | none => none
  | some s => toTimeStr s

/-- The prioritized candidate list of `find_emp_col` (comparede.py line 33). -/
def empCandidates : List String :=
  ["pay code", "emp code", "employee code", "empid", "emp id", "code"]

/-- The match test of `find_emp_col`: candidate `name` occurs in the
stripped, lowercased header (`name in str(c).strip().lower()`). -/
def headMatches (name c : String) : Bool :=
  strContains (pyLower (pyStrip c)) name

/-- Index-returning scan mirroring `for i, c in enumerate(safe_cols)`. -/
def findIdxFrom (p : String → Bool) : List String → Nat → Option Nat
  | [], _ => none
  | c :: cs, i => if p c then some i else findIdxFrom p cs (i + 1)

/-- Function `find_emp_col` (comparede.py lines 32-39) as a column index: for each
candidate phrase in priority order scan the headers left to right and return
the position of the first header containing it; with no match anywhere fall
back to column 0 (`df.columns[0]`). -/
def findEmpColIdx (headers : List String) : Nat :=
  (empCandidates.findSome? fun name =>
    findIdxFrom (headMatches name) headers 0).getD 0

/-- Function `find_emp_col` as the returned header itself (`df.columns[i]`); `none`
only on an empty header list, where the Python would raise. -/
def findEmpCol (headers : List String) : Option String :=
  headers.get? (findEmpColIdx headers)

/-- The Column Resolver as the specification words it: the first candidate
phrase that matches any header selects the first header containing it;
when no header contains any candidate phrase, the first column wins. -/
def findEmpColSpec (headers : List String) : Option String :=
  match empCandidates.find? (fun name => headers.any (headMatches name)) with
  | some name => headers.find? (headMatches name)
  | none => headers.head?

/-- A biometric table as `compare_files` sees it after its preprocessing
(comparede.py lines 69-85): header banner row skipped, duplicate headers
dropped (so a header determines a unique column position), headers stripped,
the resolved employee-id column already passed through `clean_id`, and every
cell matching `^\s*$|^-$` replaced by NaN.  A cell is `none` for NaN and
`some s` for the string `s`. -/
structure BioTable where
  headers : List String
  rows : List (List (Option String))

/-- Cell of a row at a column position; out-of-range reads as missing. -/
def cellAt (r : List (Option String)) (i : Nat) : Option String := r.getD i none

/-- The full employee-id column of a biometric table,
`set(bio1[b_emp1])` (comparede.py line 110) as a list of cells. -/
def allIds (t : BioTable) : List (Option String) :=
  t.rows.map fun r => cellAt r (findEmpColIdx t.headers)

/-- Sort order used for collected punches: `punches.sort()` on datetimes of
one common date is ascending order of seconds-of-day. -/
def timeLE (a b : PTime) : Prop := a.secs ≤ b.secs

instance : DecidableRel timeLE := fun a b => Nat.decLe a.secs b.secs

/-- The sort `punches.sort()` (comparede.py line 99). -/
def sortTimes (l : List PTime) : List PTime := List.insertionSort timeLE l

/-- The punch cells of one matched row (comparede.py lines 93-98): every
column whose header contains "PUNCH" case-insensitively, keeping cells that
are not NaN and that `to_time` parses (`if t:` on a `datetime` is just a
not-`None` test, datetimes being always truthy). -/
def rowPunchTimes (headers : List String) (r : List (Option String)) : List PTime :=
  (headers.zip r).filterMap fun hc =>
    if strContains (pyUpper hc.1) "PUNCH" then
      match hc.2 with
      | some v => toTimeStr v
      | none => none
    else none

/-- Function `get_punch_times` (comparede.py lines 88-100): the first row whose
employee-id cell equals the target key supplies the punch cells; no matching
row yields the empty list; the survivors are sorted ascending. -/
def getPunchTimes (t : BioTable) (emp : String) : List PTime :=
  match t.rows.find? (fun r => cellAt r (findEmpColIdx t.headers) == some emp) with
  | none => []
  | some r => sortTimes (rowPunchTimes t.headers r)

/-- IN window start, `time(6, 45)` (comparede.py line 103). -/
def inStartT : PTime := ⟨6, 45, 0⟩

/-- IN window end, `time(7, 30)`. -/
def inEndT : PTime := ⟨7, 30, 0⟩

/-- OUT window start, `time(15, 15)`. -/
def outStartT : PTime := ⟨15, 15, 0⟩

/-- OUT window end, `time(15, 20)`. -/
def outEndT : PTime := ⟨15, 20, 0⟩

/-- Default value for the guarded positional accesses `punches[i]`; every
use below sits under a length test that makes the default unreachable. -/
def t0 : PTime := ⟨0, 0, 0⟩

/-- Absolute difference in seconds,
`abs((b - a).total_seconds())` of `diff_mins` (comparede.py line 157) for two
same-date datetimes; `diff_mins a b <= 10` is exactly `diffSecs a b ≤ 600`
(the guard `if a and b` of `diff_mins` is dead at every call site, both
arguments being list elements, hence actual datetimes). -/
def diffSecs (a b : PTime) : Nat := max a.secs b.secs - min a.secs b.secs

/-- The shift classifier: the three-way branch of the loop body of
`compare_files` (comparede.py lines 123-172) after the punches of both
sources have been collected.  `shift` is the roster's shift label already
stripped and lowercased (line 114). -/
def classify (shift : String) (p1 p2 : List PTime) : String :=
  if strContains shift "full" || strContains shift "fn" then
    match p1.head?, p2.head? with
    | some _, some _ => "Match"
    | some _, none => "Match"
    | none, some _ => "Single Out Punch"
    | none, none => "No Punch"
  else if strContains shift "day" || strContains shift "morning" then
    if p1.length < 2 then "No Punch"
    else
      if ¬ (inStartT.secs ≤ (p1.getD 0 t0).secs ∧ (p1.getD 0 t0).secs ≤ inEndT.secs)
      then "No Punch"
      else if (p1.getLastD t0).secs < outStartT.secs then "Early"
      else if outStartT.secs ≤ (p1.getLastD t0).secs ∧
          (p1.getLastD t0).secs ≤ outEndT.secs then "Match"
      else "No Punch"
  else
    if p1.length = 0 then "No Punch"
    else if 4 ≤ p1.length then
      if diffSecs (p1.getD 0 t0) (p1.getD 3 t0) ≤ 600 then "Single In Punch" else "Match"
    else if p1.length = 3 then
      if diffSecs (p1.getD 0 t0) (p1.getD 2 t0) ≤ 600 then "Single In Punch" else "Match"
    else if p1.length = 2 then
      if diffSecs (p1.getD 0 t0) (p1.getD 1 t0) ≤ 600 then "Single In Punch" else "Match"
    else if p1.length = 1 then "Single In Punch"
    else "Mismatch"

/-- One roster row as the classification loop reads it: `emp` is the
employee-id cell as a string (the column passed through `.astype(str)`),
`shift` is `str` of the shift cell (so a missing shift reads as "nan" or,
with the literal fallback key absent from the row, as the empty default),
and `rest` stands for the remaining passthrough fields. -/
structure RosterRow where
  emp : String
  shift : String
  rest : List String
deriving DecidableEq, BEq

/-- The loop body of `compare_files` (comparede.py lines 112-174) for one
roster row whose employee-id field has already been normalized by the
driver: absent from Source 1's id column → "No Punch" without touching
Source 2; otherwise classify on the collected punches of both sources. -/
def rowStatus (bio1 bio2 : BioTable) (row : RosterRow) : String :=
  let shift := pyLower (pyStrip row.shift)
  if (allIds bio1).contains (some row.emp) then
    classify shift (getPunchTimes bio1 row.emp) (getPunchTimes bio2 row.emp)
  else "No Punch"

/-- The in-place normalization
`manual_df[m_emp] = manual_df[m_emp].astype(str).map(clean_id)`
(comparede.py line 80) restricted to one row. -/
def cleanRow (r : RosterRow) : RosterRow := { r with emp := cleanId r.emp }

/-- The classification core of `compare_files`: normalize the roster's
employee-id column (line 80), then walk the roster rows in order computing
one status each (lines 112-174), and append the status as a new trailing
field (line 176).  The returned list pairs each (normalized) roster row with
its status, in the roster's original order. -/
def compareFiles (roster : List RosterRow) (bio1 bio2 : BioTable) :
    List (RosterRow × String) :=
  (roster.map cleanRow).map fun r => (r, rowStatus bio1 bio2 r)

/-- The six enumerated status labels of the specification. -/
def statusLabels : List String :=
  ["Match", "No Punch", "Early", "Single In Punch", "Single Out Punch", "Mismatch"]

/-- The Category C decision rule as the claim words it: the result depends
only on the count n of Source-1 punches, comparing `punch[0]` against
`punch[1]`, `punch[2]` or `punch[3]` by the 10-minute rule. -/
def tenMinuteRule (a b : PTime) : String :=
  if diffSecs a b ≤ 600 then "Single In Punch" else "Match"

/-- Category C per the claim: n = 0 → No Punch, n = 1 → Single In Punch,
n = 2 / 3 / ≥ 4 → the 10-minute rule on the stated pair. -/
def otherShiftRule (p1 : List PTime) : String :=
  if p1.length = 0 then "No Punch"
  else if p1.length = 1 then "Single In Punch"
  else if p1.length = 2 then tenMinuteRule (p1.getD 0 t0) (p1.getD 1 t0)
  else if p1.length = 3 then tenMinuteRule (p1.getD 0 t0) (p1.getD 2 t0)
  else tenMinuteRule (p1.getD 0 t0) (p1.getD 3 t0)

/-- Example biometric headers: an id column and two punch columns. -/
def exHeaders : List String := ["Emp Code", "Punch1", "Punch2"]

/-- Example Source 1: employee E1 punched 07:00:00 and 15:18:00. -/
def exB1 : BioTable :=
  ⟨exHeaders, [[some "E1", some "07:00:00", some "15:18:00"]]⟩

/-- Example Source 2: employee E1 punched 06:00:00 only. -/
def exB2 : BioTable :=
  ⟨exHeaders, [[some "E1", some "06:00:00", none]]⟩

/-- Example Source with no data rows. -/
def exBEmpty : BioTable := ⟨exHeaders, []⟩

/-- Example roster holding one raw (not yet normalized) employee id. -/
def cexRoster : List RosterRow := [⟨"a-1", "", []⟩]

/-! ### Helper lemmas -/

theorem alnum_not_ws {c : Char} (h : isAlnumUp c = true) : isWS c = false := by
  simp only [isAlnumUp, Bool.or_eq_true, Bool.and_eq_true, decide_eq_true_eq] at h
  simp only [isWS, Bool.or_eq_false_iff, decide_eq_false_iff_not]
  omega

theorem alnum_upChar {c : Char} (h : isAlnumUp c = true) : upChar c = c := by
  simp only [isAlnumUp, Bool.or_eq_true, Bool.and_eq_true, decide_eq_true_eq] at h
  unfold upChar
  rw [if_neg (by omega)]

theorem alnum_ne_dot {c : Char} (h : isAlnumUp c = true) : c ≠ '.' := by
  intro hc
  subst hc
  simp [isAlnumUp] at h

theorem map_fix {l : List Char} {f : Char → Char} (h : ∀ c ∈ l, f c = c) :
    l.map f = l := by
  induction l with
  | nil => rfl
  | cons c t ih =>
    simp only [List.map_cons, h c (List.mem_cons_self c t)]
    rw [ih fun x hx => h x (List.mem_cons_of_mem c hx)]

theorem dropWhile_fix {l : List Char} (h : ∀ c ∈ l, isWS c = false) :
    l.dropWhile isWS = l := by
  cases l with
  | nil => rfl
  | cons c t =>
    rw [List.dropWhile_cons, h c (List.mem_cons_self c t)]
    simp

theorem pyStripL_fix {l : List Char} (h : ∀ c ∈ l, isWS c = false) :
    pyStripL l = l := by
  unfold pyStripL
  rw [dropWhile_fix h, dropWhile_fix (fun c hc => h c (List.mem_reverse.mp hc)),
    List.reverse_reverse]

theorem dropDot0_fix {l : List Char} (h : ∀ c ∈ l, isAlnumUp c = true) :
    dropDot0 l = l := by
  unfold dropDot0
  rw [if_neg]
  intro hb
  simp only [endsDot0, beq_iff_eq] at hb
  have hd : '.' ∈ l.reverse.take 2 := by rw [hb]; simp
  have hmem : '.' ∈ l := List.mem_reverse.mp (List.take_subset 2 l.reverse hd)
  exact alnum_ne_dot (h _ hmem) rfl

theorem cleanId_all_alnum (s : String) : ∀ c ∈ (cleanId s).data, isAlnumUp c = true :=
  fun _ hc => List.of_mem_filter hc

theorem cleanId_idem (s : String) : cleanId (cleanId s) = cleanId s := by
  have h := cleanId_all_alnum s
  show cleanId (String.mk ((cleanId s).data)) = cleanId s
  unfold cleanId at h ⊢
  set d := (dropDot0 ((pyStripL s.data).map upChar)).filter isAlnumUp with hd
  simp only []
  rw [pyStripL_fix (fun c hc => alnum_not_ws (h c hc)),
    map_fix (fun c hc => alnum_upChar (h c hc)),
    dropDot0_fix h, List.filter_eq_self.mpr h]

theorem toTimeStr_strip_invariant (s : String) :
    toTimeStr (String.mk (s.data.filter isClockChar)) = toTimeStr s := by
  unfold toTimeStr stripClock
  rw [List.filter_filter]
  simp only [Bool.and_self]

/-! Ordering facts for sorted punch lists. -/

instance : IsTotal PTime timeLE := ⟨fun a b => Nat.le_total a.secs b.secs⟩

instance : IsTrans PTime timeLE := ⟨fun _ _ _ => Nat.le_trans⟩

theorem sortTimes_perm (l : List PTime) : List.Perm (sortTimes l) l :=
  List.perm_insertionSort timeLE l

theorem sortTimes_sorted (l : List PTime) : List.Sorted timeLE (sortTimes l) :=
  List.sorted_insertionSort timeLE l

theorem getPunchTimes_sorted (t : BioTable) (emp : String) :
    List.Sorted timeLE (getPunchTimes t emp) := by
  unfold getPunchTimes
  cases t.rows.find? (fun r => cellAt r (findEmpColIdx t.headers) == some emp) with
  | none => exact List.sorted_nil
  | some r => exact sortTimes_sorted _

theorem getD_zero_mem {l : List PTime} (h : l ≠ []) (d : PTime) : l.getD 0 d ∈ l := by
  cases l with
  | nil => exact absurd rfl h
  | cons a t => simp

theorem getLastD_mem {l : List PTime} (h : l ≠ []) (d : PTime) : l.getLastD d ∈ l := by
  cases l with
  | nil => exact absurd rfl h
  | cons a t =>
    rw [List.getLastD_cons]
    exact List.getLastD_mem_cons t a

theorem sorted_getD_zero_le {l : List PTime} (hs : List.Sorted timeLE l)
    {x : PTime} (hx : x ∈ l) (d : PTime) : (l.getD 0 d).secs ≤ x.secs := by
  cases l with
  | nil => cases hx
  | cons a t =>
    rw [List.getD_cons_zero]
    rcases List.mem_cons.mp hx with rfl | hxt
    · exact Nat.le_refl _
    · exact List.rel_of_pairwise_cons hs hxt

theorem sorted_le_getLastD :
    ∀ {l : List PTime}, List.Sorted timeLE l →
      ∀ x ∈ l, ∀ d : PTime, x.secs ≤ (l.getLastD d).secs := by
  intro l
  induction l with
  | nil => intro _ x hx; cases hx
  | cons a t ih =>
    intro hs x hx d
    rw [List.getLastD_cons]
    rcases List.mem_cons.mp hx with rfl | hxt
    · cases t with
      | nil => exact Nat.le_refl _
      | cons b u =>
        have hb : x.secs ≤ b.secs :=
          List.rel_of_pairwise_cons hs (List.mem_cons_self b u)
        exact Nat.le_trans hb
          (ih (List.Sorted.of_cons hs) b (List.mem_cons_self b u) x)
    · exact ih (List.Sorted.of_cons hs) x hxt a

/-! Index-scan facts for the Column Resolver. -/

theorem findIdxFrom_shift (p : String → Bool) (l : List String) :
    ∀ i, findIdxFrom p l i = (findIdxFrom p l 0).map (fun j => j + i) := by
  induction l with
  | nil => intro i; rfl
  | cons c cs ih =>
    intro i
    by_cases h : p c
    · simp [findIdxFrom, h]
    · have hfc : p c = false := Bool.eq_false_iff.mpr h
      simp only [findIdxFrom, hfc, Bool.false_eq_true, if_false]
      rw [ih (i + 1), ih 1]
      cases findIdxFrom p cs 0 with
      | none => rfl
      | some j =>
        simp only [Option.map]
        exact congrArg some (by omega)

theorem findIdxFrom_bind_get (p : String → Bool) :
    ∀ l : List String, (findIdxFrom p l 0).bind l.get? = l.find? p := by
  intro l
  induction l with
  | nil => rfl
  | cons c cs ih =>
    by_cases h : p c
    · simp [findIdxFrom, h]
    · rw [List.find?_cons_of_neg cs (by simp [h])]
      have hfc : p c = false := Bool.eq_false_iff.mpr h
      simp only [findIdxFrom, hfc, Bool.false_eq_true, if_false]
      rw [findIdxFrom_shift p cs 1, ← ih]
      cases findIdxFrom p cs 0 with
      | none => rfl
      | some j => simp

theorem findIdxFrom_isSome (p : String → Bool) :
    ∀ l : List String, (findIdxFrom p l 0).isSome = l.any p := by
  intro l
  induction l with
  | nil => rfl
  | cons c cs ih =>
    by_cases h : p c
    · simp [findIdxFrom, h]
    · have hfc : p c = false := Bool.eq_false_iff.mpr h
      simp only [findIdxFrom, hfc, Bool.false_eq_true, if_false, List.any_cons,
        Bool.false_or]
      rw [findIdxFrom_shift p cs 1, ← ih]
      cases findIdxFrom p cs 0 <;> rfl

theorem findCol_match (headers : List String) :
    ∀ names : List String,
      (match names.findSome? (fun nm => findIdxFrom (headMatches nm) headers 0) with
       | some i => headers.get? i
       | none => headers.head?) =
      (match names.find? (fun nm => headers.any (headMatches nm)) with
       | some nm => headers.find? (headMatches nm)
       | none => headers.head?) := by
  intro names
  induction names with
  | nil => rfl
  | cons nm ns ih =>
    rw [List.findSome?_cons]
    by_cases ha : headers.any (headMatches nm)
    · rw [List.find?_cons_of_pos ns (by simp [ha])]
      have hsome : (findIdxFrom (headMatches nm) headers 0).isSome = true := by
        rw [findIdxFrom_isSome]; exact ha
      obtain ⟨i, hi⟩ := Option.isSome_iff_exists.mp hsome
      rw [hi]
      have := findIdxFrom_bind_get (headMatches nm) headers
      rw [hi] at this
      exact this
    · rw [List.find?_cons_of_neg ns (by simp [ha])]
      have hnone : findIdxFrom (headMatches nm) headers 0 = none := by
        have := findIdxFrom_isSome (headMatches nm) headers
        rw [Bool.eq_false_iff.mpr ha] at this
        exact Option.not_isSome_iff_eq_none.mp (by rw [this]; simp)
      rw [hnone]
      exact ih

theorem findEmpCol_eq_spec (headers : List String) :
    findEmpCol headers = findEmpColSpec headers := by
  have h := findCol_match headers empCandidates
  unfold findEmpCol findEmpColIdx findEmpColSpec
  cases ho : empCandidates.findSome? fun nm => findIdxFrom (headMatches nm) headers 0 with
  | none =>
    rw [ho] at h
    simp only [Option.getD_none]
    rw [show headers.get? 0 = headers.head? by cases headers <;> rfl]
    exact h
  | some i =>
    rw [ho] at h
    simp only [Option.getD_some]
    exact h

/-! Case coverage of the classifier. -/

theorem classify_label (shift : String) (p1 p2 : List PTime) :
    statusLabels.contains (classify shift p1 p2) = true := by
  unfold classify
  repeat' split
  all_goals decide

theorem classify_not_mismatch (shift : String) (p1 p2 : List PTime) :
    (classify shift p1 p2 == "Mismatch") = false := by
  unfold classify
  repeat' split
  all_goals first | decide | (exfalso; omega)

theorem rowStatus_label (bio1 bio2 : BioTable) (row : RosterRow) :
    statusLabels.contains (rowStatus bio1 bio2 row) = true := by
  unfold rowStatus
  split
  · exact classify_label _ _ _
  · decide

theorem rowStatus_not_mismatch (bio1 bio2 : BioTable) (row : RosterRow) :
    (rowStatus bio1 bio2 row == "Mismatch") = false := by
  unfold rowStatus
  split
  · exact classify_not_mismatch _ _ _
  · decide

theorem classify_full_cases (shift : String) (p1 p2 : List PTime)
    (hfn : (strContains shift "full" || strContains shift "fn") = true) :
    (p1 ≠ [] → classify shift p1 p2 = "Match") ∧
    (p1 = [] → p2 ≠ [] → classify shift p1 p2 = "Single Out Punch") ∧
    (p1 = [] → p2 = [] → classify shift p1 p2 = "No Punch") := by
  unfold classify
  rw [hfn]
  refine ⟨fun h1 => ?_, fun h1 h2 => ?_, fun h1 h2 => ?_⟩
  · cases p1 with
    | nil => exact absurd rfl h1
    | cons a t => cases p2 <;> simp
  · subst h1
    cases p2 with
    | nil => exact absurd rfl h2
    | cons b u => simp
  · subst h1; subst h2; simp

theorem classify_other_eq (shift : String) (p1 p2 : List PTime)
    (h1 : strContains shift "full" = false) (h2 : strContains shift "fn" = false)
    (h3 : strContains shift "day" = false) (h4 : strContains shift "morning" = false) :
    classify shift p1 p2 = otherShiftRule p1 := by
  unfold classify otherShiftRule tenMinuteRule
  rw [h1, h2, h3, h4]
  simp only [Bool.or_self, Bool.false_eq_true, if_false]
  split_ifs <;> first | rfl | omega

/-! ### Claim theorems -/

/-- C6: the Identifier Normalizer `clean_id` is idempotent — applying it
twice equals applying it once, for every input string — and on the spec's
concrete examples `clean_id("A-123.0")` and `clean_id("a123")` both yield
"A123". -/
theorem clean_id_idempotent :
    (∀ x : String, cleanId (cleanId x) = cleanId x) ∧
    cleanId "A-123.0" = "A123" ∧ cleanId "a123" = "A123" :=
  ⟨cleanId_idem, by decide, by decide⟩

/-- C7 counterexample: `clean_id` does not map missing inputs to the empty
string — `str(None)` is "None" so `clean_id(None)` is "NONE", and a NaN cell
stringifies to "nan" so `clean_id` yields "NAN". -/
theorem clean_id_missing_counterexample :
    cleanIdScalar PyScalar.noneVal = "NONE" ∧
    cleanIdScalar PyScalar.nanVal = "NAN" ∧
    ((cleanIdScalar PyScalar.noneVal == "") = false) := by decide

/-- C7 amended: `clean_id` is a pure total function — every scalar yields a
key made only of uppercase letters and digits, and the empty string yields
the empty string — but missing inputs do not map to the empty string: `None`
yields "NONE" and NaN yields "NAN". -/
theorem clean_id_totality :
    cleanIdScalar (PyScalar.text "") = "" ∧
    cleanIdScalar PyScalar.noneVal = "NONE" ∧
    cleanIdScalar PyScalar.nanVal = "NAN" ∧
    (∀ v : PyScalar, (cleanIdScalar v).data.all isAlnumUp = true) :=
  ⟨by decide, by decide, by decide, fun v =>
    List.all_eq_true.mpr fun c hc => cleanId_all_alnum (pyStr v) c hc⟩

/-- C8: the Punch-Time Parser strips everything but digits and colons (a
pre-stripped input parses identically), parses "23:04:00 - O" to 23:04:00
and "07:16" to 07:16:00, yields no value on the empty string, on "garbage"
and on a missing cell, and — being a total function — never raises. -/
theorem to_time_parses :
    toTimeStr "23:04:00 - O" = some ⟨23, 4, 0⟩ ∧
    toTimeStr "07:16" = some ⟨7, 16, 0⟩ ∧
    toTimeStr "" = none ∧
    toTimeStr "garbage" = none ∧
    toTime none = none ∧
    (∀ s : String, toTimeStr (String.mk (s.data.filter isClockChar)) = toTimeStr s) :=
  ⟨by decide, by decide, by decide, by decide, rfl, toTimeStr_strip_invariant⟩

/-- C9: on a non-empty header list `find_emp_col` implements exactly the
prioritized resolution the spec describes — first candidate phrase that
matches any header wins, resolved to the first (leftmost) header containing
it, with the first column as the no-match fallback — and always returns a
header. -/
theorem find_emp_col_priority (headers : List String)
    (h : headers.isEmpty = false) :
    findEmpCol headers = findEmpColSpec headers ∧
    (findEmpCol headers).isSome = true := by
  refine ⟨findEmpCol_eq_spec headers, ?_⟩
  rw [findEmpCol_eq_spec headers]
  unfold findEmpColSpec
  cases ho : empCandidates.find? fun name => headers.any (headMatches name) with
  | none =>
    cases headers with
    | nil => simp at h
    | cons a t => simp
  | some name =>
    have hname : headers.any (headMatches name) = true :=
      @List.find?_some String (fun nm => headers.any (headMatches nm)) name
        empCandidates ho
    simp only [List.find?_isSome]
    obtain ⟨x, hx, hpx⟩ := List.any_eq_true.mp hname
    exact ⟨x, hx, hpx⟩

/-- C9 witness: concrete instantiation on the header list
["Name", "Emp Code"]. -/
theorem find_emp_col_priority_witness :
    (["Name", "Emp Code"] : List String).isEmpty = false ∧
    (findEmpCol ["Name", "Emp Code"] = findEmpColSpec ["Name", "Emp Code"] ∧
     (findEmpCol ["Name", "Emp Code"]).isSome = true) :=
  ⟨by decide, find_emp_col_priority ["Name", "Emp Code"] (by decide)⟩

/-- C10: the classifier never produces "Mismatch" — the final else of the
Category C chain is unreachable since every punch count falls in one of the
n = 0, 1, 2, 3, ≥ 4 cases — so the appended Status column never contains
"Mismatch". -/
theorem mismatch_unreachable :
    (∀ (shift : String) (p1 p2 : List PTime),
      (classify shift p1 p2 == "Mismatch") = false) ∧
    (∀ (roster : List RosterRow) (bio1 bio2 : BioTable),
      ((compareFiles roster bio1 bio2).map Prod.snd).contains "Mismatch" = false) := by
  refine ⟨classify_not_mismatch, fun roster bio1 bio2 => ?_⟩
  rw [Bool.eq_false_iff]
  intro hc
  have hmem : "Mismatch" ∈ (compareFiles roster bio1 bio2).map Prod.snd :=
    List.mem_of_elem_eq_true hc
  simp only [compareFiles, List.map_map, List.mem_map, Function.comp] at hmem
  obtain ⟨r, _, hr⟩ := hmem
  have := rowStatus_not_mismatch bio1 bio2 (cleanRow r)
  rw [hr] at this
  simp at this

/-- C1: a roster row present in Source 1 whose processed shift label
contains "day" or "morning" but neither "full" nor "fn" is classified as
"No Punch" with fewer than two collected Source-1 punches; otherwise, with
`tin` the earliest and `tout` the latest Source-1 punch, as "No Punch" when
`tin` misses the inclusive window [06:45:00, 07:30:00], else "Early" when
`tout` is before 15:15:00, "Match" when `tout` lies in [15:15:00, 15:20:00],
and "No Punch" when `tout` is after 15:20:00. -/
theorem day_morning_rule (bio1 bio2 : BioTable) (row : RosterRow)
    (hin : (allIds bio1).contains (some row.emp) = true)
    (hday : (strContains (pyLower (pyStrip row.shift)) "day" ||
             strContains (pyLower (pyStrip row.shift)) "morning") = true)
    (hfull : strContains (pyLower (pyStrip row.shift)) "full" = false)
    (hfn : strContains (pyLower (pyStrip row.shift)) "fn" = false) :
    ((getPunchTimes bio1 row.emp).length < 2 →
      rowStatus bio1 bio2 row = "No Punch") ∧
    (∀ tin tout : PTime, tin ∈ getPunchTimes bio1 row.emp →
      tout ∈ getPunchTimes bio1 row.emp →
      (∀ u ∈ getPunchTimes bio1 row.emp, tin.secs ≤ u.secs) →
      (∀ u ∈ getPunchTimes bio1 row.emp, u.secs ≤ tout.secs) →
      2 ≤ (getPunchTimes bio1 row.emp).length →
      rowStatus bio1 bio2 row =
        (if tin.secs < inStartT.secs ∨ inEndT.secs < tin.secs then "No Punch"
         else if tout.secs < outStartT.secs then "Early"
         else if outStartT.secs ≤ tout.secs ∧ tout.secs ≤ outEndT.secs then "Match"
         else "No Punch")) := by
  unfold rowStatus classify
  simp only [hin, hday, hfull, hfn, Bool.or_self, Bool.false_eq_true, if_false,
    if_true]
  constructor
  · intro hlt
    rw [if_pos hlt]
  · intro tin tout htin htout hmin hmax hlen
    rw [if_neg (by omega)]
    have hsort := getPunchTimes_sorted bio1 row.emp
    have hne : getPunchTimes bio1 row.emp ≠ [] := by
      intro he
      rw [he] at hlen
      simp at hlen
    have hhead : ((getPunchTimes bio1 row.emp).getD 0 t0).secs = tin.secs :=
      Nat.le_antisymm (sorted_getD_zero_le hsort htin t0)
        (hmin _ (getD_zero_mem hne t0))
    have hlast : ((getPunchTimes bio1 row.emp).getLastD t0).secs = tout.secs :=
      Nat.le_antisymm (hmax _ (getLastD_mem hne t0))
        (sorted_le_getLastD hsort tout htout t0)
    rw [hhead, hlast]
    split_ifs <;> first | rfl | omega

/-- C1 witness: employee E1 with the day-shift punches 07:00:00 and
15:18:00 is classified "Match". -/
theorem day_morning_rule_witness :
    rowStatus exB1 exB2 ⟨"E1", "Day Shift", []⟩ = "Match" := by
  have h := (day_morning_rule exB1 exB2 ⟨"E1", "Day Shift", []⟩
    (by decide) (by decide) (by decide) (by decide)).2
    ⟨7, 0, 0⟩ ⟨15, 18, 0⟩ (by decide) (by decide) (by decide) (by decide)
    (by decide)
  exact h.trans (by decide)

/-- C2: a roster row present in Source 1 whose processed shift label
contains "full" or "fn" is classified "Match" whenever at least one
Source-1 punch exists (whatever Source 2 holds), "Single Out Punch" with no
Source-1 punch but some Source-2 punch, and "No Punch" with both punch
lists empty. -/
theorem full_night_rule (bio1 bio2 : BioTable) (row : RosterRow)
    (hin : (allIds bio1).contains (some row.emp) = true)
    (hfn : (strContains (pyLower (pyStrip row.shift)) "full" ||
            strContains (pyLower (pyStrip row.shift)) "fn") = true) :
    (getPunchTimes bio1 row.emp ≠ [] → rowStatus bio1 bio2 row = "Match") ∧
    (getPunchTimes bio1 row.emp = [] → getPunchTimes bio2 row.emp ≠ [] →
      rowStatus bio1 bio2 row = "Single Out Punch") ∧
    (getPunchTimes bio1 row.emp = [] → getPunchTimes bio2 row.emp = [] →
      rowStatus bio1 bio2 row = "No Punch") := by
  unfold rowStatus
  simp only [hin, if_true]
  exact classify_full_cases _ _ _ hfn

/-- C2 witness: employee E1 on a full-night shift with Source-1 punches
present is classified "Match". -/
theorem full_night_rule_witness :
    rowStatus exB1 exB2 ⟨"E1", "Full Night", []⟩ = "Match" :=
  (full_night_rule exB1 exB2 ⟨"E1", "Full Night", []⟩
    (by decide) (by decide)).1 (by decide)

/-- C3: a roster row present in Source 1 whose processed shift label
contains none of "full", "fn", "day", "morning" is classified independently
of Source 2, by the count n of collected Source-1 punches: n = 0 → No
Punch, n = 1 → Single In Punch, n = 2 / 3 / ≥ 4 → compare punch[0] with
punch[1] / punch[2] / punch[3]: within 10 minutes → Single In Punch, else
Match. -/
theorem category_c_rule (bio1 bio2 alt2 : BioTable) (row : RosterRow)
    (hin : (allIds bio1).contains (some row.emp) = true)
    (h1 : strContains (pyLower (pyStrip row.shift)) "full" = false)
    (h2 : strContains (pyLower (pyStrip row.shift)) "fn" = false)
    (h3 : strContains (pyLower (pyStrip row.shift)) "day" = false)
    (h4 : strContains (pyLower (pyStrip row.shift)) "morning" = false) :
    rowStatus bio1 bio2 row = rowStatus bio1 alt2 row ∧
    rowStatus bio1 bio2 row = otherShiftRule (getPunchTimes bio1 row.emp) := by
  have e1 := classify_other_eq (pyLower (pyStrip row.shift))
    (getPunchTimes bio1 row.emp) (getPunchTimes bio2 row.emp) h1 h2 h3 h4
  have e2 := classify_other_eq (pyLower (pyStrip row.shift))
    (getPunchTimes bio1 row.emp) (getPunchTimes alt2 row.emp) h1 h2 h3 h4
  unfold rowStatus
  simp only [hin, if_true]
  exact ⟨e1.trans e2.symm, e1⟩

/-- C3 witness: employee E1 on shift "HF" with punches 07:00:00 and
15:18:00 (more than 10 minutes apart) is classified "Match", with an
arbitrary second source. -/
theorem category_c_rule_witness :
    rowStatus exB1 exB2 ⟨"E1", "HF", []⟩ = "Match" := by
  have h := (category_c_rule exB1 exB2 exBEmpty ⟨"E1", "HF", []⟩
    (by decide) (by decide) (by decide) (by decide) (by decide)).2
  exact h.trans (by decide)

/-- C4: a roster row whose normalized key occurs nowhere in Source 1's
resolved employee-id column is assigned "No Punch" whatever its shift label,
and Source 2 is never consulted — the status is the same for any two
Source-2 tables. -/
theorem absent_key_no_punch (bio1 bio2 alt2 : BioTable) (row : RosterRow)
    (h : (allIds bio1).contains (some row.emp) = false) :
    rowStatus bio1 bio2 row = "No Punch" ∧
    rowStatus bio1 bio2 row = rowStatus bio1 alt2 row := by
  have hm : ¬ some row.emp ∈ allIds bio1 := by
    intro hmem
    have he : (allIds bio1).contains (some row.emp) = true :=
      List.elem_eq_true_of_mem hmem
    rw [h] at he
    exact Bool.false_ne_true he
  unfold rowStatus
  simp [hm]

/-- C4 witness: employee E9 is absent from the example Source 1 and is
classified "No Punch". -/
theorem absent_key_no_punch_witness :
    rowStatus exB1 exB2 ⟨"E9", "Day Shift", []⟩ = "No Punch" :=
  (absent_key_no_punch exB1 exB2 exBEmpty ⟨"E9", "Day Shift", []⟩ (by decide)).1

/-- C5 counterexample: the annotated output does not differ from the input
roster only by the appended Status — `compare_files` also normalizes the
employee-id column in place, so the raw id "a-1" comes back as "A123"-style
key "A1", a non-Status difference. -/
theorem output_mutates_roster :
    (compareFiles cexRoster exBEmpty exBEmpty).map Prod.fst =
      [{ emp := "A1", shift := "", rest := ([] : List String) }] ∧
    (({ emp := "A1", shift := "", rest := ([] : List String) } : RosterRow) ==
      { emp := "a-1", shift := "", rest := ([] : List String) }) = false := by
  decide

/-- C5 amended: the annotated output has exactly the roster's row count and
row order, one Status appended per row, every Status among the six
enumerated labels; each row is otherwise unchanged except that its
employee-id field is replaced by its normalized key (and, in the full
program, a located date column is re-coerced to dates — a cosmetic step
outside this embedding). -/
theorem compare_files_shape (roster : List RosterRow) (bio1 bio2 : BioTable) :
    (compareFiles roster bio1 bio2).length = roster.length ∧
    (compareFiles roster bio1 bio2).map Prod.fst = roster.map cleanRow ∧
    ((compareFiles roster bio1 bio2).map Prod.snd).all
      (fun s => statusLabels.contains s) = true := by
  refine ⟨by simp [compareFiles], by simp [compareFiles], ?_⟩
  rw [List.all_eq_true]
  intro s hs
  simp only [compareFiles, List.map_map, List.mem_map, Function.comp] at hs
  obtain ⟨r, _, hr⟩ := hs
  rw [← hr]
  exact rowStatus_label bio1 bio2 (cleanRow r)

end Attendance
